import Mathlib

set_option linter.unusedVariables false

/-! Shallow embedding of the JavaScript utility repository (ElementBuilder,
ElementHandler, ElementExplorer, the Logger family and StorageManager).
The claims under verification concern StorageManager and LoggerBase, so those
two components, together with the DomValidator and LoggerValidation guards
they call, are embedded here, translated method by method from the source. -/

/-- JavaScript values in the JSON fragment: null, booleans, numbers (modelled
as integers), strings, arrays and plain objects. Object fields are ordered
lists of name/value pairs; JavaScript property tables have pairwise distinct
names, and the embedding is used on that fragment. -/
inductive JSValue where
  | vNull
  | vBool (b : Bool)
  | vNum (n : Int)
  | vStr (s : String)
  | vArr (elems : List JSValue)
  | vObj (fields : List (String × JSValue))

/-- A string held in host storage, classified by how it was produced. The
source writes strings into storage through JSON.stringify (setValue, setObject,
setExpiration, ...), through CryptoJS.AES.encrypt(data, secret).toString()
(setEncrypted), and through LZString.compress(data) (setCompressed); arbitrary
pre-existing host content that happens to parse as JSON is covered by the
jsonOf constructor as well, since such a string is observationally the
stringify image of its parse. -/
inductive HostString where
  | jsonOf (v : JSValue)
  | cipher (data : String)
  | lz (data : String)

/-- Host JSON.parse on a stored string. JSON.parse of JSON.stringify output
yields back the serialized value (round trip on the JSON value fragment).
AES ciphertext from CryptoJS is the base64 rendering of an OpenSSL
Salted__ blob, so it begins with the letters U2FsdGVkX1 and is never a valid
JSON document; LZString.compress output is a packed sequence of arbitrary
16-bit code units, likewise not a JSON document. Parsing those throws a
SyntaxError, modelled as an error result. -/
def jsonParse : HostString → Except String JSValue
  | .jsonOf v => .ok v
  | .cipher _ => .error "SyntaxError: unexpected token in JSON"
  | .lz _ => .error "SyntaxError: unexpected token in JSON"

/-- JavaScript truthiness of the result of storage.getItem: null (absent key)
is falsy, and a string is falsy exactly when it is empty. JSON.stringify
output is always a nonempty string, and AES ciphertext always contains at
least the base64 salt header; LZString.compress maps only the empty string to
the empty string. -/
def hostTruthy : Option HostString → Bool
  | none => false
  | some (.jsonOf _) => true
  | some (.cipher _) => true
  | some (.lz d) => d != ""

/-- JSON.parse applied to a storage.getItem result. When the key is absent,
getItem yields null and JSON.parse coerces null to the string "null", which
parses to the JSON null value. -/
def jsonParseStored : Option HostString → Except String JSValue
  | none => .ok .vNull
  | some h => jsonParse h

/-- One browser storage area (localStorage or sessionStorage): an ordered
association list from keys to stored strings. -/
def Storage := List (String × HostString)

/-- storage.getItem: the value stored under the first matching key, or null. -/
def sGet : Storage → String → Option HostString
  | [], _ => none
  | (k', v) :: rest, k => if k = k' then some v else sGet rest k

/-- storage.setItem: overwrite the first binding of the key, or append a new
binding. -/
def sSet : Storage → String → HostString → Storage
  | [], k, v => [(k, v)]
  | (k', v') :: rest, k, v =>
      if k = k' then (k', v) :: rest else (k', v') :: sSet rest k v

/-- storage.removeItem: drop every binding of the key. -/
def sRemove (l : Storage) (k : String) : Storage :=
  l.filter (fun e => e.1 != k)

/-- A pending setTimeout callback registered by StorageManager.setExpiration:
after delayMs milliseconds it removes the recorded key from the recorded
storage area. -/
structure TimerEntry where
  delayMs : Int
  useSession : Bool
  key : String

/-- A mutating host-storage call: one setItem, removeItem or clear, recorded
with the storage area it acted on. Reads (getItem) are not mutations. -/
inductive MutEvent where
  | setE (useSession : Bool) (key : String) (value : HostString)
  | removeE (useSession : Bool) (key : String)
  | clearE (useSession : Bool)

/-- The key a mutating call touched, when it names one (clear touches every
key and names none). -/
def MutEvent.touchedKey : MutEvent → Option String
  | .setE _ k _ => some k
  | .removeE _ k => some k
  | .clearE _ => none

/-- The host state the storage wrappers act on: the two storage areas, the
queue of pending expiration timers in scheduling order, and a ghost trace of
every mutating host-storage call performed so far. -/
structure HostState where
  localStorage : Storage
  sessionStorage : Storage
  timers : List TimerEntry
  trace : List MutEvent

/-- The storage area selected by useSessionStorage ? sessionStorage :
localStorage. -/
def getStorage (useSession : Bool) (st : HostState) : Storage :=
  if useSession then st.sessionStorage else st.localStorage

/-- Write back the selected storage area. -/
def setStorage (useSession : Bool) (s : Storage) (st : HostState) : HostState :=
  if useSession then { st with sessionStorage := s } else { st with localStorage := s }

/-- storage.getItem on the selected area. -/
def hsGetItem (useSession : Bool) (k : String) (st : HostState) : Option HostString :=
  sGet (getStorage useSession st) k

/-- storage.setItem on the selected area, recorded in the mutation trace. -/
def hsSetItem (useSession : Bool) (k : String) (v : HostString) (st : HostState) : HostState :=
  let st' := setStorage useSession (sSet (getStorage useSession st) k v) st
  { st' with trace := st'.trace ++ [.setE useSession k v] }

/-- storage.removeItem on the selected area, recorded in the mutation trace. -/
def hsRemoveItem (useSession : Bool) (k : String) (st : HostState) : HostState :=
  let st' := setStorage useSession (sRemove (getStorage useSession st) k) st
  { st' with trace := st'.trace ++ [.removeE useSession k] }

/-- storage.clear on the selected area, recorded in the mutation trace. -/
def hsClear (useSession : Bool) (st : HostState) : HostState :=
  let st' := setStorage useSession [] st
  { st' with trace := st'.trace ++ [.clearE useSession] }

/-- The host state with both storage areas empty and nothing scheduled. -/
def emptyHost : HostState := ⟨[], [], [], []⟩

/-- Results returned by the JavaScript methods: a bare return yields
undefined, a return null / return value yields a JavaScript value, and the
chainable storage setters end with return this. -/
inductive JSOut where
  | undef
  | js (v : JSValue)
  | thisRef

/-- Whether an Except result is a thrown error. -/
def isError {α : Type} : Except String α → Bool
  | .error _ => true
  | .ok _ => false

/-- The string payload of a vStr; the storage methods apply it only after the
isString guard has accepted the key. -/
def keyStr : JSValue → String
  | .vStr s => s
  | _ => ""

namespace DomValidator

/-- DomValidator.isString, from the validator at the end of the storage
source file: a Joi schema requiring param to be a string. Joi string()
rejects every non-string and also rejects the empty string (empty strings
are not allowed by default). Via validateParams, a failure throws when
throwOnError is true and yields false when it is false; success yields
true. -/
def isString (param : JSValue) (throwOnError : Bool) : Except String Bool :=
  match param with
  | .vStr s =>
      if s = "" then
        if throwOnError then .error "Invalid parameters: param is not allowed to be empty"
        else .ok false
      else .ok true
  | _ =>
      if throwOnError then .error "Invalid parameters: param must be a string"
      else .ok false

/-- DomValidator.throwOrReturnOnError: throw the message when throwOnError is
true, otherwise return null (modelled as a unit success; the caller then
performs its own bare return or return null). -/
def throwOrReturnOnError (throwOnError : Bool) (message : String) : Except String Unit :=
  if throwOnError then .error message else .ok ()

end DomValidator

/-- The fields of a timing record written by setExpiration: the JSON image of
the expirationTime binding, null when no expiration was computed. -/
def expirationToJson : Option Int → JSValue
  | none => .vNull
  | some t => .vNum t

/-- JavaScript truthiness of the expirationTime variable in setExpiration: it
is either null (falsy) or a number, and a number is falsy exactly when it is
zero. -/
def expTruthy : Option Int → Bool
  | none => false
  | some t => t != 0

/-- Is the parsed value a non-null non-array object, as tested by
parsedValue !== null && typeof parsedValue === "object" &&
!Array.isArray(parsedValue). -/
def isPlainObject : JSValue → Bool
  | .vObj _ => true
  | _ => false

/-- Does the parsed value satisfy storedValue && typeof storedValue ===
"object" && ("expirationTime" in storedValue): null is falsy, arrays carry no
expirationTime property, so only objects with an expirationTime field pass. -/
def hasExpirationField : JSValue → Bool
  | .vObj fields => fields.any (fun f => f.1 == "expirationTime")
  | _ => false

namespace StorageManager

/-- StorageManager.setValue (storage source lines 33-41): validate the key,
then storage.setItem(key, JSON.stringify(value)); return this. -/
def setValue (key value : JSValue) (useSessionStorage throwOnError : Bool)
    (st : HostState) : Except String JSOut × HostState :=
  match DomValidator.isString key throwOnError with
  | .error e => (.error e, st)
  | .ok false =>
      match DomValidator.throwOrReturnOnError throwOnError
        "Invalid parameters: key must be a string." with
      | .error e => (.error e, st)
      | .ok _ => (.ok .undef, st)
  | .ok true =>
      (.ok .thisRef, hsSetItem useSessionStorage (keyStr key) (.jsonOf value) st)

/-- StorageManager.getValue (lines 64-73): validate the key, read
storage.getItem(key), and return storedValue ? JSON.parse(storedValue) :
null. The JSON.parse call is not wrapped in try/catch. -/
def getValue (key : JSValue) (useSessionStorage throwOnError : Bool)
    (st : HostState) : Except String JSOut × HostState :=
  match DomValidator.isString key throwOnError with
  | .error e => (.error e, st)
  | .ok false =>
      match DomValidator.throwOrReturnOnError throwOnError
        "Invalid parameters: key must be a string." with
      | .error e => (.error e, st)
      | .ok _ => (.ok .undef, st)
  | .ok true =>
      let storedValue := hsGetItem useSessionStorage (keyStr key) st
      if hostTruthy storedValue then
        match jsonParseStored storedValue with
        | .error e => (.error e, st)
        | .ok v => (.ok (.js v), st)
      else (.ok (.js .vNull), st)

/-- StorageManager.removeValue (lines 96-105): validate the key, then
storage.removeItem(key); return this. -/
def removeValue (key : JSValue) (useSessionStorage throwOnError : Bool)
    (st : HostState) : Except String JSOut × HostState :=
  match DomValidator.isString key throwOnError with
  | .error e => (.error e, st)
  | .ok false =>
      match DomValidator.throwOrReturnOnError throwOnError
        "Invalid parameters: key must be a string." with
      | .error e => (.error e, st)
      | .ok _ => (.ok .undef, st)
  | .ok true =>
      (.ok .thisRef, hsRemoveItem useSessionStorage (keyStr key) st)

/-- StorageManager.clearStorage (lines 122-125): no parameter validation and
no throwOnError parameter; storage.clear(). -/
def clearStorage (useSessionStorage : Bool) (st : HostState) :
    Except String JSOut × HostState :=
  (.ok .undef, hsClear useSessionStorage st)

/-- StorageManager.getObject (lines 186-207): validate the key (returning
null on a rejected key when not throwing), then inside try/catch parse the
stored string; return the parsed value when it is a non-null non-array
object, otherwise throwOrReturnOnError and return null; a parse failure is
caught and handled the same way. -/
def getObject (key : JSValue) (useSessionStorage throwOnError : Bool)
    (st : HostState) : Except String JSOut × HostState :=
  match DomValidator.isString key throwOnError with
  | .error e => (.error e, st)
  | .ok false =>
      match DomValidator.throwOrReturnOnError throwOnError
        "Invalid parameters: key must be a string." with
      | .error e => (.error e, st)
      | .ok _ => (.ok (.js .vNull), st)
  | .ok true =>
      let storedValue := hsGetItem useSessionStorage (keyStr key) st
      match jsonParseStored storedValue with
      | .ok parsedValue =>
          if isPlainObject parsedValue then (.ok (.js parsedValue), st)
          else
            match DomValidator.throwOrReturnOnError throwOnError
              "Stored value must be a non-array object." with
            | .error e => (.error e, st)
            | .ok _ => (.ok (.js .vNull), st)
      | .error _ =>
          match DomValidator.throwOrReturnOnError throwOnError
            "Stored value must be an object." with
          | .error e => (.error e, st)
          | .ok _ => (.ok (.js .vNull), st)

/-- StorageManager.getNumber (lines 854-869): validate the key (returning
null on a rejected key when not throwing), then parse the stored string with
JSON.parse outside any try/catch; if the parsed value is not a number,
throwOrReturnOnError and return null, otherwise return it. -/
def getNumber (key : JSValue) (useSessionStorage throwOnError : Bool)
    (st : HostState) : Except String JSOut × HostState :=
  match DomValidator.isString key throwOnError with
  | .error e => (.error e, st)
  | .ok false =>
      match DomValidator.throwOrReturnOnError throwOnError
        "Invalid parameters: key must be a string." with
      | .error e => (.error e, st)
      | .ok _ => (.ok (.js .vNull), st)
  | .ok true =>
      match jsonParseStored (hsGetItem useSessionStorage (keyStr key) st) with
      | .error e => (.error e, st)
      | .ok storedValue =>
          match storedValue with
          | .vNum n => (.ok (.js (.vNum n)), st)
          | _ =>
              match DomValidator.throwOrReturnOnError throwOnError
                "Stored value must be a number." with
              | .error e => (.error e, st)
              | .ok _ => (.ok (.js .vNull), st)

/-- The setTimeout call made by setExpiration: register a pending callback
that will remove the key from the selected storage area after the given
delay. -/
def scheduleTimeout (delayMs : Int) (useSession : Bool) (k : String)
    (st : HostState) : HostState :=
  { st with timers := st.timers ++ [⟨delayMs, useSession, k⟩] }

/-- StorageManager.setExpiration (lines 1298-1322): validate key and
secondsToExpiration (an integer always passes the Joi number check, and the
short-circuit never reaches it when the key is rejected); compute
expirationTime = secondsToExpiration ? Date.now() + secondsToExpiration *
1000 : null; store JSON.stringify of the record with fields value and
expirationTime (the host setItem does not throw in this model, so the
try/catch is inert); if expirationTime is truthy, setTimeout a callback
removing the key after secondsToExpiration * 1000 milliseconds; return this.
Date.now() is passed in as the now argument. -/
def setExpiration (key value : JSValue) (secondsToExpiration : Int)
    (useSessionStorage throwOnError : Bool) (now : Int) (st : HostState) :
    Except String JSOut × HostState :=
  match DomValidator.isString key throwOnError with
  | .error e => (.error e, st)
  | .ok false =>
      match DomValidator.throwOrReturnOnError throwOnError
        "Invalid parameters: key must be a string." with
      | .error e => (.error e, st)
      | .ok _ => (.ok .undef, st)
  | .ok true =>
      let expirationTime : Option Int :=
        if secondsToExpiration ≠ 0 then some (now + secondsToExpiration * 1000) else none
      let storedValue : JSValue :=
        .vObj [("value", value), ("expirationTime", expirationToJson expirationTime)]
      let st1 := hsSetItem useSessionStorage (keyStr key) (.jsonOf storedValue) st
      let st2 :=
        if expTruthy expirationTime then
          scheduleTimeout (secondsToExpiration * 1000) useSessionStorage (keyStr key) st1
        else st1
      (.ok .thisRef, st2)

/-- The callback body registered by setExpiration: storage.removeItem(key)
(followed by a console.log, which has no storage effect). It runs whatever
the storage holds at firing time. -/
def fireTimer (t : TimerEntry) (st : HostState) : HostState :=
  hsRemoveItem t.useSession t.key st

/-- StorageManager.swapValues (lines 1774-1794): validate both keys (the
JavaScript guard short-circuits, so key2 is only validated when key1 passed),
read both values, and when both are non-null write value2 under key1 and
value1 under key2 — two setItem calls; otherwise throwOrReturnOnError. -/
def swapValues (key1 key2 : JSValue) (useSessionStorage throwOnError : Bool)
    (st : HostState) : Except String JSOut × HostState :=
  match DomValidator.isString key1 throwOnError with
  | .error e => (.error e, st)
  | .ok false =>
      match DomValidator.throwOrReturnOnError throwOnError
        "Invalid parameters: key1 and key2 must be strings." with
      | .error e => (.error e, st)
      | .ok _ => (.ok .undef, st)
  | .ok true =>
      match DomValidator.isString key2 throwOnError with
      | .error e => (.error e, st)
      | .ok false =>
          match DomValidator.throwOrReturnOnError throwOnError
            "Invalid parameters: key1 and key2 must be strings." with
          | .error e => (.error e, st)
          | .ok _ => (.ok .undef, st)
      | .ok true =>
          let value1 := hsGetItem useSessionStorage (keyStr key1) st
          let value2 := hsGetItem useSessionStorage (keyStr key2) st
          match value1, value2 with
          | some v1, some v2 =>
              let st1 := hsSetItem useSessionStorage (keyStr key1) v2 st
              let st2 := hsSetItem useSessionStorage (keyStr key2) v1 st1
              (.ok .undef, st2)
          | _, _ =>
              match DomValidator.throwOrReturnOnError throwOnError
                "No stored value found for one or both of the keys." with
              | .error e => (.error e, st)
              | .ok _ => (.ok .undef, st)

/-- StorageManager.removeAllTimingItems (lines 1485-1498): it takes no
throwOnError parameter and no key argument; for every key of the selected
storage area (snapshot of Object.keys before the loop), parse the currently
stored string inside try/catch and remove the item when the parsed value is
an object carrying an expirationTime property; parse failures are silently
skipped. -/
def removeAllTimingItems (useSessionStorage : Bool) (st : HostState) :
    Except String JSOut × HostState :=
  let keys := (getStorage useSessionStorage st).map (fun e => e.1)
  let st' := keys.foldl
    (fun acc key =>
      match jsonParseStored (hsGetItem useSessionStorage key acc) with
      | .ok storedValue =>
          if hasExpirationField storedValue then hsRemoveItem useSessionStorage key acc
          else acc
      | .error _ => acc) st
  (.ok .undef, st')

/-- StorageManager.setEncrypted (lines 3254-3266): validate the key, then
store CryptoJS.AES.encrypt(data, secret).toString() — the raw ciphertext
string, not a JSON.stringify image — and return this. -/
def setEncrypted (key : JSValue) (data : String)
    (useSessionStorage throwOnError : Bool) (st : HostState) :
    Except String JSOut × HostState :=
  match DomValidator.isString key throwOnError with
  | .error e => (.error e, st)
  | .ok false =>
      match DomValidator.throwOrReturnOnError throwOnError
        "Invalid parameters: key must be a string." with
      | .error e => (.error e, st)
      | .ok _ => (.ok .undef, st)
  | .ok true =>
      (.ok .thisRef, hsSetItem useSessionStorage (keyStr key) (.cipher data) st)

/-- StorageManager.setCompressed (lines 3533-3546): validate the key, then
store LZString.compress(data) — again a raw transformed string — with no
return value. -/
def setCompressed (key : JSValue) (data : String)
    (useSessionStorage throwOnError : Bool) (st : HostState) :
    Except String JSOut × HostState :=
  match DomValidator.isString key throwOnError with
  | .error e => (.error e, st)
  | .ok false =>
      match DomValidator.throwOrReturnOnError throwOnError
        "Invalid parameters: key must be a string." with
      | .error e => (.error e, st)
      | .ok _ => (.ok .undef, st)
  | .ok true =>
      (.ok .undef, hsSetItem useSessionStorage (keyStr key) (.lz data) st)

end StorageManager

/-- One call to a modelled StorageManager method, with its arguments. -/
inductive StorageOp where
  | opSetValue (key value : JSValue) (useSession throwOnError : Bool)
  | opGetValue (key : JSValue) (useSession throwOnError : Bool)
  | opRemoveValue (key : JSValue) (useSession throwOnError : Bool)
  | opClearStorage (useSession : Bool)
  | opGetObject (key : JSValue) (useSession throwOnError : Bool)
  | opGetNumber (key : JSValue) (useSession throwOnError : Bool)
  | opSetExpiration (key value : JSValue) (secs : Int) (useSession throwOnError : Bool) (now : Int)
  | opSwapValues (key1 key2 : JSValue) (useSession throwOnError : Bool)
  | opRemoveAllTimingItems (useSession : Bool)
  | opSetEncrypted (key : JSValue) (data : String) (useSession throwOnError : Bool)
  | opSetCompressed (key : JSValue) (data : String) (useSession throwOnError : Bool)

/-- The host state after performing one modelled StorageManager call
(whether it returned or threw, the state reflects the mutations made). -/
def stepState (op : StorageOp) (st : HostState) : HostState :=
  match op with
  | .opSetValue k v u t => (StorageManager.setValue k v u t st).2
  | .opGetValue k u t => (StorageManager.getValue k u t st).2
  | .opRemoveValue k u t => (StorageManager.removeValue k u t st).2
  | .opClearStorage u => (StorageManager.clearStorage u st).2
  | .opGetObject k u t => (StorageManager.getObject k u t st).2
  | .opGetNumber k u t => (StorageManager.getNumber k u t st).2
  | .opSetExpiration k v secs u t now => (StorageManager.setExpiration k v secs u t now st).2
  | .opSwapValues k1 k2 u t => (StorageManager.swapValues k1 k2 u t st).2
  | .opRemoveAllTimingItems u => (StorageManager.removeAllTimingItems u st).2
  | .opSetEncrypted k d u t => (StorageManager.setEncrypted k d u t st).2
  | .opSetCompressed k d u t => (StorageManager.setCompressed k d u t st).2

/-- The keys named in the arguments of a modelled call (only string
arguments name keys; the bulk methods name none). -/
def opNamedKeys : StorageOp → List String
  | .opSetValue k _ _ _ => [keyStr k]
  | .opGetValue k _ _ => [keyStr k]
  | .opRemoveValue k _ _ => [keyStr k]
  | .opClearStorage _ => []
  | .opGetObject k _ _ => [keyStr k]
  | .opGetNumber k _ _ => [keyStr k]
  | .opSetExpiration k _ _ _ _ _ => [keyStr k]
  | .opSwapValues k1 k2 _ _ => [keyStr k1, keyStr k2]
  | .opRemoveAllTimingItems _ => []
  | .opSetEncrypted k _ _ _ => [keyStr k]
  | .opSetCompressed k _ _ _ => [keyStr k]

/-- The modelled methods whose bodies contain at most one mutating
host-storage call, all on an argument key: this excludes swapValues (two
setItem calls), clearStorage (clear) and removeAllTimingItems (one
removeItem per timing key found). -/
def singleCallOp : StorageOp → Bool
  | .opSwapValues _ _ _ _ => false
  | .opClearStorage _ => false
  | .opRemoveAllTimingItems _ => false
  | _ => true

/-- The LOG_LEVELS enum of the logger base module, as an ordered property
table: Object.keys of it is DEBUG, INFO, WARN in insertion order, and
indexing it with a valid level name returns that same name. -/
def LOG_LEVELS : List (String × String) :=
  [("DEBUG", "DEBUG"), ("INFO", "INFO"), ("WARN", "WARN")]

/-- Property access LOG_LEVELS[name]: the stored value, or undefined. -/
def logLevelsLookup : List (String × String) → String → Option String
  | [], _ => none
  | (k, v) :: rest, s => if s = k then some v else logLevelsLookup rest s

/-- Array.prototype.indexOf over a list of strings: index of the first
occurrence, or -1. -/
def jsIndexOf : List String → String → Int
  | [], _ => -1
  | x :: xs, s =>
      if x = s then 0
      else
        let r := jsIndexOf xs s
        if r = -1 then -1 else r + 1

/-- Object.keys(LOG_LEVELS).indexOf(level), used by addLog for both the
message level and the instance level. -/
def logLevelIndex (level : String) : Int :=
  jsIndexOf (LOG_LEVELS.map (fun e => e.1)) level

namespace LoggerValidation

/-- LoggerValidation._validateLogLevel (logger validator source lines 30-40):
Joi string restricted to WARN, INFO, DEBUG with default INFO and no required
marker. Joi treats an undefined level as absent, applies the default and
reports no error, so only a defined value outside the three names throws.
An undefined argument is modelled as none. -/
def validateLogLevel (level : Option String) : Except String Unit :=
  match level with
  | none => .ok ()
  | some s =>
      if s = "WARN" ∨ s = "INFO" ∨ s = "DEBUG" then .ok ()
      else .error "Invalid parameters: level must be one of [WARN, INFO, DEBUG]"

/-- LoggerValidation._validateLogMessage (lines 51-59): Joi string required;
a required Joi string rejects undefined and also the empty string. -/
def validateLogMessage (message : Option String) : Except String Unit :=
  match message with
  | none => .error "Invalid parameters: message is required"
  | some s =>
      if s = "" then .error "Invalid parameters: message is not allowed to be empty"
      else .ok ()

end LoggerValidation

/-- The instance fields of a LoggerBase object: the level property (a
JavaScript value that is a string in intended use but can be left undefined,
modelled as none) and the logs array. -/
structure LoggerState where
  level : Option String
  logs : List String

namespace LoggerBase

/-- The LoggerBase constructor (logger source lines 44-56):
constructor(level = LOG_LEVELS.INFO) — the JavaScript default parameter
replaces an undefined argument by INFO — validates the level and stores it,
starting with an empty logs array. -/
def mk (levelArg : Option String) : Except String LoggerState :=
  let level := levelArg.getD "INFO"
  match LoggerValidation.validateLogLevel (some level) with
  | .error e => .error e
  | .ok _ => .ok ⟨some level, []⟩

/-- LoggerBase.setLogLevel (lines 79-82): setLogLevel(level) — note the
signature carries no trailing throwOnError parameter — validates the level
and writes it to the instance. -/
def setLogLevel (st : LoggerState) (level : Option String) : Except String LoggerState :=
  match LoggerValidation.validateLogLevel level with
  | .error e => .error e
  | .ok _ => .ok { st with level := level }

/-- LoggerBase.addLog (lines 191-209): addLog(message, level = INFO)
validates level then message, computes the indexOf positions of the message
level and of this.level.toString() in Object.keys(LOG_LEVELS) — reading
toString of an undefined level throws a TypeError — and when levelIndex is
not below the instance index pushes the string
level + " - " + timestamp + " - " + message onto the logs array; otherwise
it returns with the logs unchanged. The host clock value
new Date().toISOString() is passed in as the timestamp argument. -/
def addLog (st : LoggerState) (message : Option String) (levelArg : Option String)
    (timestamp : String) : Except String LoggerState :=
  let level := levelArg.getD "INFO"
  match LoggerValidation.validateLogLevel (some level) with
  | .error e => .error e
  | .ok _ =>
    match LoggerValidation.validateLogMessage message with
    | .error e => .error e
    | .ok _ =>
      match st.level with
      | none => .error "TypeError: cannot read toString of undefined"
      | some instLevel =>
        let levelIndex := logLevelIndex level
        let levelConstructorIndex := logLevelIndex instLevel
        if levelIndex < levelConstructorIndex then .ok st
        else
          let finalMessage := level ++ " - " ++ timestamp ++ " - " ++ message.getD ""
          .ok { st with logs := st.logs ++ [finalMessage] }

end LoggerBase

/-- The separator " - " used by LoggerBase.getLogLevel, as a character
list. -/
def SEP : List Char := [' ', '-', ' ']

/-- Locate the first occurrence of SEP in a character list: the characters
before it and the characters after it, or none when SEP does not occur. -/
def splitFirst : List Char → Option (List Char × List Char)
  | [] => none
  | c :: cs =>
      if SEP.isPrefixOf (c :: cs) then some ([], (c :: cs).drop SEP.length)
      else
        match splitFirst cs with
        | none => none
        | some (pre, post) => some (c :: pre, post)

theorem splitFirst_shrink : ∀ (s : List Char) (pre post : List Char),
    splitFirst s = some (pre, post) → post.length < s.length := by
  intro s
  induction s with
  | nil => intro pre post h; simp [splitFirst] at h
  | cons c cs ih =>
      intro pre post h
      unfold splitFirst at h
      by_cases hp : SEP.isPrefixOf (c :: cs)
      · simp only [hp, if_pos] at h
        have hle : SEP.length ≤ (c :: cs).length :=
          (List.isPrefixOf_iff_prefix.mp hp).length_le
        injection h with h1
        have h2 : post = (c :: cs).drop SEP.length := by
          have := congrArg Prod.snd h1
          simpa using this.symm
        subst h2
        simp only [List.length_drop]
        simp only [SEP, List.length_cons] at hle ⊢
        omega
      · simp only [hp, if_neg, Bool.false_eq_true, not_false_iff] at h
        cases hrec : splitFirst cs with
        | none => rw [hrec] at h; simp at h
        | some pr =>
            rw [hrec] at h
            obtain ⟨pre', post'⟩ := pr
            have := ih pre' post' hrec
            simp only at h
            injection h with h1
            have h2 : post = post' := by
              have := congrArg Prod.snd h1
              simpa using this.symm
            subst h2
            simp only [List.length_cons]
            omega

/-- String.prototype.split(" - ") on a character list: the chunks between
the non-overlapping occurrences of SEP, scanned left to right. -/
def jsSplitSep (s : List Char) : List (List Char) :=
  match h : splitFirst s with
  | none => [s]
  | some (pre, post) => pre :: jsSplitSep post
termination_by s.length
decreasing_by exact splitFirst_shrink s pre post h

/-- LoggerBase.getLogLevel (lines 105-113): split the log message at " - ",
take the first part and index LOG_LEVELS with it; an unknown first part
yields undefined (none). -/
def getLogLevel (logMessage : String) : Option String :=
  let parts := jsSplitSep logMessage.toList
  let logLevel := String.mk (parts.headD [])
  logLevelsLookup LOG_LEVELS logLevel

/-- One call on a LoggerBase instance after construction. -/
inductive LoggerOp where
  | setLevel (level : Option String)
  | add (message : Option String) (level : Option String) (timestamp : String)

/-- Perform one logger call. -/
def runLoggerOp (st : LoggerState) : LoggerOp → Except String LoggerState
  | .setLevel l => LoggerBase.setLogLevel st l
  | .add m l ts => LoggerBase.addLog st m l ts

/-- Perform a sequence of logger calls, stopping at the first thrown
error; an ok result means every call returned normally. -/
def runLoggerTrace (st : LoggerState) : List LoggerOp → Except String LoggerState
  | [] => .ok st
  | op :: ops =>
      match runLoggerOp st op with
      | .error e => .error e
      | .ok st' => runLoggerTrace st' ops

lemma sGet_sSet_self (l : Storage) (k : String) (v : HostString) :
    sGet (sSet l k v) k = some v := by
  induction l with
  | nil => simp [sSet, sGet]
  | cons hd tl ih =>
      obtain ⟨k', v'⟩ := hd
      by_cases h : k = k'
      · simp [sSet, sGet, h]
      · simp [sSet, sGet, h, ih]

lemma sGet_sRemove_self (l : Storage) (k : String) :
    sGet (sRemove l k) k = none := by
  induction l with
  | nil => simp [sRemove, sGet]
  | cons hd tl ih =>
      obtain ⟨k', v'⟩ := hd
      by_cases h : k' = k
      · subst h
        simpa [sRemove, List.filter] using ih
      · have hb : (k' != k) = true := by simpa [bne_iff_ne] using h
        have hne : k ≠ k' := fun hh => h hh.symm
        simp only [sRemove, List.filter, hb] at ih ⊢
        simpa [sGet, hne] using ih

lemma getStorage_setStorage_same (u : Bool) (s : Storage) (st : HostState) :
    getStorage u (setStorage u s st) = s := by
  cases u <;> simp [getStorage, setStorage]

lemma hsGetItem_hsSetItem_self (u : Bool) (k : String) (v : HostString) (st : HostState) :
    hsGetItem u k (hsSetItem u k v st) = some v := by
  cases u <;>
    simp [hsGetItem, hsSetItem, getStorage, setStorage, sGet_sSet_self]

lemma timers_setStorage (u : Bool) (s : Storage) (st : HostState) :
    (setStorage u s st).timers = st.timers := by
  cases u <;> simp [setStorage]

lemma timers_hsSetItem (u : Bool) (k : String) (v : HostString) (st : HostState) :
    (hsSetItem u k v st).timers = st.timers := by
  cases u <;> simp [hsSetItem, setStorage]

lemma timers_hsRemoveItem (u : Bool) (k : String) (st : HostState) :
    (hsRemoveItem u k st).timers = st.timers := by
  cases u <;> simp [hsRemoveItem, setStorage]

lemma timers_hsClear (u : Bool) (st : HostState) :
    (hsClear u st).timers = st.timers := by
  cases u <;> simp [hsClear, setStorage]

lemma trace_setStorage (u : Bool) (s : Storage) (st : HostState) :
    (setStorage u s st).trace = st.trace := by
  cases u <;> simp [setStorage]

lemma trace_hsSetItem (u : Bool) (k : String) (v : HostString) (st : HostState) :
    (hsSetItem u k v st).trace = st.trace ++ [.setE u k v] := by
  cases u <;> simp [hsSetItem, setStorage]

lemma trace_hsRemoveItem (u : Bool) (k : String) (st : HostState) :
    (hsRemoveItem u k st).trace = st.trace ++ [.removeE u k] := by
  cases u <;> simp [hsRemoveItem, setStorage]

lemma timers_removeAllTimingItems_fold (u : Bool) :
    ∀ (keys : List String) (st : HostState),
    (keys.foldl
      (fun acc key =>
        match jsonParseStored (hsGetItem u key acc) with
        | .ok storedValue =>
            if hasExpirationField storedValue then hsRemoveItem u key acc else acc
        | .error _ => acc) st).timers = st.timers := by
  intro keys
  induction keys with
  | nil => intro st; simp
  | cons k ks ih =>
      intro st
      simp only [List.foldl_cons]
      rw [ih]
      cases h : jsonParseStored (hsGetItem u k st) with
      | ok v =>
          by_cases hexp : hasExpirationField v = true
          · simp [h, hexp, timers_hsRemoveItem]
          · simp [h, hexp]
      | error e => simp [h]

lemma splitFirst_boundary : ∀ (pre rest : List Char), (∀ c ∈ pre, c ≠ ' ') →
    splitFirst (pre ++ SEP ++ rest) = some (pre, rest) := by
  intro pre
  induction pre with
  | nil =>
      intro rest h
      simp only [List.nil_append]
      show splitFirst (' ' :: ('-' :: ' ' :: rest)) = some ([], rest)
      unfold splitFirst
      have hp : SEP.isPrefixOf (' ' :: '-' :: ' ' :: rest) = true := by
        simp [SEP, List.isPrefixOf]
      simp [hp, SEP]
  | cons c cs ih =>
      intro rest h
      have hc : c ≠ ' ' := h c (by simp)
      have hcs : ∀ x ∈ cs, x ≠ ' ' := fun x hx => h x (by simp [hx])
      show splitFirst (c :: (cs ++ SEP ++ rest)) = some (c :: cs, rest)
      unfold splitFirst
      have hp : SEP.isPrefixOf (c :: (cs ++ SEP ++ rest)) = false := by
        simp only [SEP, List.isPrefixOf, Bool.and_eq_false_iff]
        left
        simpa [beq_iff_eq] using fun hh => hc hh.symm
      simp only [hp, Bool.false_eq_true, if_neg, not_false_iff]
      rw [ih rest hcs]

lemma jsSplitSep_of_splitFirst_some {s pre post : List Char}
    (h : splitFirst s = some (pre, post)) :
    jsSplitSep s = pre :: jsSplitSep post := by
  conv_lhs => unfold jsSplitSep
  split
  · rename_i heq
    rw [h] at heq
    cases heq
  · rename_i pre' post' heq
    rw [h] at heq
    injection heq with heq1
    injection heq1 with h1 h2
    subst h1
    subst h2
    rfl

lemma jsSplitSep_boundary (pre rest : List Char) (h : ∀ c ∈ pre, c ≠ ' ') :
    jsSplitSep (pre ++ SEP ++ rest) = pre :: jsSplitSep rest :=
  jsSplitSep_of_splitFirst_some (splitFirst_boundary pre rest h)

lemma getLogLevel_formatted (lv rest : String)
    (hlv : lv = "DEBUG" ∨ lv = "INFO" ∨ lv = "WARN") :
    getLogLevel (lv ++ " - " ++ rest) = some lv := by
  have hdata : (lv ++ " - " ++ rest).toList = lv.toList ++ SEP ++ rest.toList := by
    show (lv ++ " - " ++ rest).data = lv.data ++ SEP ++ rest.data
    rw [String.data_append, String.data_append]
    rfl
  have hns : ∀ c ∈ lv.toList, c ≠ ' ' := by
    rcases hlv with h | h | h <;> subst h <;> decide
  have hmk : String.mk lv.toList = lv := rfl
  unfold getLogLevel
  rw [hdata, jsSplitSep_boundary lv.toList rest.toList hns]
  simp only [List.headD_cons, hmk]
  rcases hlv with h | h | h <;> subst h <;> rfl

/-- The three valid log level names, as the disjunction the Joi validator
accepts. -/
def isLogLevelName (s : String) : Prop :=
  s = "DEBUG" ∨ s = "INFO" ∨ s = "WARN"

lemma addLog_valid_eq (cur lv msg ts : String) (logs : List String)
    (hcur : isLogLevelName cur) (hlv : isLogLevelName lv) (hmsg : msg ≠ "") :
    LoggerBase.addLog ⟨some cur, logs⟩ (some msg) (some lv) ts =
      .ok ⟨some cur,
        if logLevelIndex lv < logLevelIndex cur then logs
        else logs ++ [lv ++ " - " ++ ts ++ " - " ++ msg]⟩ := by
  rcases hcur with h1 | h1 | h1 <;> rcases hlv with h2 | h2 | h2 <;>
    subst h1 <;> subst h2 <;>
    simp [LoggerBase.addLog, LoggerValidation.validateLogLevel,
      LoggerValidation.validateLogMessage, hmsg, logLevelIndex, jsIndexOf, LOG_LEVELS]

lemma addLog_level_preserved {st st' : LoggerState} {m l : Option String} {ts : String}
    (h : LoggerBase.addLog st m l ts = .ok st') : st'.level = st.level := by
  unfold LoggerBase.addLog at h
  dsimp only at h
  cases hv : LoggerValidation.validateLogLevel (some (l.getD "INFO")) with
  | error e => rw [hv] at h; cases h
  | ok u =>
      rw [hv] at h
      cases hm : LoggerValidation.validateLogMessage m with
      | error e => rw [hm] at h; cases h
      | ok u2 =>
          rw [hm] at h
          dsimp only at h
          cases hl : st.level with
          | none => rw [hl] at h; cases h
          | some s =>
              rw [hl] at h
              dsimp only at h
              by_cases hidx : logLevelIndex (l.getD "INFO") < logLevelIndex s
              · rw [if_pos hidx] at h
                injection h with h1
                rw [← h1, hl]
              · rw [if_neg hidx] at h
                injection h with h1
                rw [← h1]

lemma setLogLevel_some_ok {st st' : LoggerState} {s : String}
    (h : LoggerBase.setLogLevel st (some s) = .ok st') :
    st'.level = some s ∧ isLogLevelName s := by
  unfold LoggerBase.setLogLevel LoggerValidation.validateLogLevel at h
  by_cases hs : s = "WARN" ∨ s = "INFO" ∨ s = "DEBUG"
  · simp only [hs, if_pos] at h
    injection h with h1
    refine ⟨by rw [← h1], ?_⟩
    unfold isLogLevelName
    tauto
  · simp only [hs, if_neg, not_false_iff] at h
    cases h

lemma mk_ok_valid {arg : Option String} {st : LoggerState}
    (h : LoggerBase.mk arg = .ok st) :
    (∃ s, st.level = some s ∧ isLogLevelName s) ∧ st.logs = [] := by
  unfold LoggerBase.mk LoggerValidation.validateLogLevel at h
  by_cases hs : arg.getD "INFO" = "WARN" ∨ arg.getD "INFO" = "INFO" ∨ arg.getD "INFO" = "DEBUG"
  · simp only [hs, if_pos] at h
    injection h with h1
    refine ⟨⟨arg.getD "INFO", by rw [← h1], ?_⟩, by rw [← h1]⟩
    unfold isLogLevelName
    tauto
  · simp only [hs, if_neg, not_false_iff] at h
    cases h

/-- A logger call whose argument list never passes an undefined level to
setLogLevel. -/
def definedSetLevel : LoggerOp → Prop
  | .setLevel none => False
  | _ => True

lemma runLoggerTrace_valid : ∀ (ops : List LoggerOp) (st st' : LoggerState),
    (∃ s, st.level = some s ∧ isLogLevelName s) →
    (∀ op ∈ ops, definedSetLevel op) →
    runLoggerTrace st ops = .ok st' →
    ∃ s, st'.level = some s ∧ isLogLevelName s := by
  intro ops
  induction ops with
  | nil =>
      intro st st' hv hd h
      unfold runLoggerTrace at h
      injection h with h1
      rw [← h1]
      exact hv
  | cons op rest ih =>
      intro st st' hv hd h
      unfold runLoggerTrace at h
      cases hstep : runLoggerOp st op with
      | error e => rw [hstep] at h; cases h
      | ok st1 =>
          rw [hstep] at h
          refine ih st1 st' ?_ (fun o ho => hd o (by simp [ho])) h
          cases op with
          | setLevel l =>
              cases l with
              | none => exact absurd (hd (.setLevel none) (by simp)) (by simp [definedSetLevel])
              | some s =>
                  obtain ⟨h1, h2⟩ := setLogLevel_some_ok hstep
                  exact ⟨s, h1, h2⟩
          | add m l ts =>
              obtain ⟨s, hs1, hs2⟩ := hv
              exact ⟨s, by rw [addLog_level_preserved hstep, hs1], hs2⟩

/-- Claim C3: for every LoggerBase instance with a valid level and every
valid message and level, addLog(message, level) appends exactly one
formatted entry to the logs array if and only if the index of level in the
DEBUG, INFO, WARN ordering is at least the index of the instance level, and
otherwise leaves the logs unchanged. -/
theorem c3_addLog_level_filtering (cur lv msg ts : String) (logs : List String)
    (hcur : isLogLevelName cur) (hlv : isLogLevelName lv) (hmsg : msg ≠ "") :
    ∃ st', LoggerBase.addLog ⟨some cur, logs⟩ (some msg) (some lv) ts = .ok st' ∧
      st'.level = some cur ∧
      (st'.logs = logs ++ [lv ++ " - " ++ ts ++ " - " ++ msg] ↔
        logLevelIndex cur ≤ logLevelIndex lv) ∧
      (logLevelIndex lv < logLevelIndex cur → st'.logs = logs) := by
  refine ⟨_, addLog_valid_eq cur lv msg ts logs hcur hlv hmsg, rfl, ?_, ?_⟩
  · by_cases hidx : logLevelIndex lv < logLevelIndex cur
    · simp only [if_pos hidx]
      constructor
      · intro hh
        exact absurd hh (by simp)
      · intro hle
        omega
    · simp only [if_neg hidx]
      constructor
      · intro _
        omega
      · intro _
        trivial
  · intro hidx
    simp only [if_pos hidx]

/-- Witness for C3 at a concrete instance: logger at INFO, message at WARN
(index 2 at least index 1, so the entry is appended). -/
theorem c3_addLog_level_filtering_witness :
    isError (LoggerBase.addLog ⟨some "INFO", []⟩ (some "hello") (some "WARN") "T") = false := by
  obtain ⟨st', h, _⟩ := c3_addLog_level_filtering "INFO" "WARN" "hello" "T" []
    (Or.inr (Or.inl rfl)) (Or.inr (Or.inr rfl)) (by decide)
  rw [h]
  rfl

/-- Claim C10: applying getLogLevel to the entry appended by a successful
filtering addLog(message, level) call recovers that same level: the entry is
level - timestamp - message, getLogLevel splits at " - ", takes the first
part and maps it through LOG_LEVELS. -/
theorem c10_getLogLevel_of_addLog (cur lv msg ts : String) (logs : List String)
    (hcur : isLogLevelName cur) (hlv : isLogLevelName lv) (hmsg : msg ≠ "")
    (happ : logLevelIndex cur ≤ logLevelIndex lv) :
    ∃ e, LoggerBase.addLog ⟨some cur, logs⟩ (some msg) (some lv) ts =
        .ok ⟨some cur, logs ++ [e]⟩ ∧ getLogLevel e = some lv := by
  refine ⟨lv ++ " - " ++ ts ++ " - " ++ msg, ?_, ?_⟩
  · rw [addLog_valid_eq cur lv msg ts logs hcur hlv hmsg, if_neg (by omega)]
  · have hassoc : lv ++ " - " ++ ts ++ " - " ++ msg =
        lv ++ " - " ++ (ts ++ " - " ++ msg) := by
      apply String.ext
      simp [String.data_append, List.append_assoc]
    rw [hassoc]
    exact getLogLevel_formatted lv (ts ++ " - " ++ msg) hlv

/-- Witness for C10 at a concrete instance: logger at DEBUG, entry at INFO. -/
theorem c10_getLogLevel_of_addLog_witness :
    ∃ e, LoggerBase.addLog ⟨some "DEBUG", []⟩ (some "m") (some "INFO") "T" =
        .ok ⟨some "DEBUG", [] ++ [e]⟩ ∧ getLogLevel e = some "INFO" :=
  c10_getLogLevel_of_addLog "DEBUG" "INFO" "m" "T" []
    (Or.inl rfl) (Or.inr (Or.inl rfl)) (by decide) (by decide)

/-- Claim C8 counterexample: the Joi log-level validator treats an undefined
level as absent and applies its default instead of throwing, so
setLogLevel(undefined) returns normally and leaves the level field
undefined — not one of DEBUG, INFO, WARN. -/
theorem c8_counterexample :
    LoggerBase.mk none = .ok ⟨some "INFO", []⟩ ∧
    runLoggerTrace ⟨some "INFO", []⟩ [.setLevel none] = .ok ⟨none, []⟩ ∧
    ¬ ∃ s, (LoggerState.mk none []).level = some s ∧ isLogLevelName s := by
  refine ⟨rfl, rfl, ?_⟩
  rintro ⟨s, hs, _⟩
  cases hs

/-- Claim C8 as amended: after the constructor and any sequence of
setLogLevel and addLog calls that return normally, in which no setLogLevel
call receives an undefined level, the level field is one of DEBUG, INFO,
WARN. -/
theorem c8_level_invariant (lvl0 : Option String) (ops : List LoggerOp)
    (st0 st : LoggerState) (hmk : LoggerBase.mk lvl0 = .ok st0)
    (hdef : ∀ op ∈ ops, definedSetLevel op)
    (hrun : runLoggerTrace st0 ops = .ok st) :
    st.level = some "DEBUG" ∨ st.level = some "INFO" ∨ st.level = some "WARN" := by
  obtain ⟨⟨s, hs1, hs2⟩, _⟩ := mk_ok_valid hmk
  obtain ⟨s', hs1', hs2'⟩ := runLoggerTrace_valid ops st0 st ⟨s, hs1, hs2⟩ hdef hrun
  rcases hs2' with h | h | h
  · subst h; exact Or.inl hs1'
  · subst h; exact Or.inr (Or.inl hs1')
  · subst h; exact Or.inr (Or.inr hs1')

/-- Witness for C8 at a concrete trace: construct at DEBUG, one defined
setLogLevel to WARN. -/
theorem c8_level_invariant_witness :
    (LoggerState.mk (some "WARN") []).level = some "DEBUG" ∨
    (LoggerState.mk (some "WARN") []).level = some "INFO" ∨
    (LoggerState.mk (some "WARN") []).level = some "WARN" :=
  c8_level_invariant (some "DEBUG") [.setLevel (some "WARN")]
    ⟨some "DEBUG", []⟩ ⟨some "WARN", []⟩ rfl
    (by
      intro op hop
      rw [List.mem_singleton] at hop
      subst hop
      trivial)
    rfl

lemma hsGetItem_hsRemoveItem_self (u : Bool) (k : String) (st : HostState) :
    hsGetItem u k (hsRemoveItem u k st) = none := by
  cases u <;>
    simp [hsGetItem, hsRemoveItem, getStorage, setStorage, sGet_sRemove_self]

lemma timers_scheduleTimeout (d : Int) (u : Bool) (k : String) (st : HostState) :
    (StorageManager.scheduleTimeout d u k st).timers = st.timers ++ [⟨d, u, k⟩] := rfl

lemma trace_scheduleTimeout (d : Int) (u : Bool) (k : String) (st : HostState) :
    (StorageManager.scheduleTimeout d u k st).trace = st.trace := rfl

lemma setValue_state (k v : JSValue) (u t : Bool) (st : HostState) :
    (StorageManager.setValue k v u t st).2 = st ∨
    (StorageManager.setValue k v u t st).2 = hsSetItem u (keyStr k) (.jsonOf v) st := by
  unfold StorageManager.setValue
  cases hv : DomValidator.isString k t with
  | error e => exact Or.inl rfl
  | ok b =>
      cases b
      · cases t <;> exact Or.inl rfl
      · exact Or.inr rfl

lemma getValue_state (k : JSValue) (u t : Bool) (st : HostState) :
    (StorageManager.getValue k u t st).2 = st := by
  unfold StorageManager.getValue
  cases hv : DomValidator.isString k t with
  | error e => rfl
  | ok b =>
      cases b
      · cases t <;> rfl
      · dsimp only
        split
        · split <;> rfl
        · rfl

lemma removeValue_state (k : JSValue) (u t : Bool) (st : HostState) :
    (StorageManager.removeValue k u t st).2 = st ∨
    (StorageManager.removeValue k u t st).2 = hsRemoveItem u (keyStr k) st := by
  unfold StorageManager.removeValue
  cases hv : DomValidator.isString k t with
  | error e => exact Or.inl rfl
  | ok b =>
      cases b
      · cases t <;> exact Or.inl rfl
      · exact Or.inr rfl

lemma getObject_state (k : JSValue) (u t : Bool) (st : HostState) :
    (StorageManager.getObject k u t st).2 = st := by
  unfold StorageManager.getObject
  cases hv : DomValidator.isString k t with
  | error e => rfl
  | ok b =>
      cases b
      · cases t <;> rfl
      · dsimp only
        split
        · split
          · rfl
          · cases t <;> rfl
        · cases t <;> rfl

lemma getNumber_state (k : JSValue) (u t : Bool) (st : HostState) :
    (StorageManager.getNumber k u t st).2 = st := by
  unfold StorageManager.getNumber
  cases hv : DomValidator.isString k t with
  | error e => rfl
  | ok b =>
      cases b
      · cases t <;> rfl
      · dsimp only
        split
        · rfl
        · split
          · rfl
          · cases t <;> rfl

lemma setExpiration_state (k v : JSValue) (secs : Int) (u t : Bool) (now : Int)
    (st : HostState) :
    (StorageManager.setExpiration k v secs u t now st).2 = st ∨
    (∃ w, (StorageManager.setExpiration k v secs u t now st).2 =
      hsSetItem u (keyStr k) (.jsonOf w) st) ∨
    (∃ w, (StorageManager.setExpiration k v secs u t now st).2 =
      StorageManager.scheduleTimeout (secs * 1000) u (keyStr k)
        (hsSetItem u (keyStr k) (.jsonOf w) st)) := by
  unfold StorageManager.setExpiration
  cases hv : DomValidator.isString k t with
  | error e => exact Or.inl rfl
  | ok b =>
      cases b
      · cases t <;> exact Or.inl rfl
      · dsimp only
        by_cases hx :
          expTruthy (if secs ≠ 0 then some (now + secs * 1000) else none) = true
        · rw [if_pos hx]
          exact Or.inr (Or.inr ⟨_, rfl⟩)
        · rw [if_neg hx]
          exact Or.inr (Or.inl ⟨_, rfl⟩)

lemma swapValues_state (k1 k2 : JSValue) (u t : Bool) (st : HostState) :
    (StorageManager.swapValues k1 k2 u t st).2 = st ∨
    (∃ v1 v2, (StorageManager.swapValues k1 k2 u t st).2 =
      hsSetItem u (keyStr k2) v1 (hsSetItem u (keyStr k1) v2 st)) := by
  unfold StorageManager.swapValues
  cases hv1 : DomValidator.isString k1 t with
  | error e => exact Or.inl rfl
  | ok b1 =>
      cases b1
      · cases t <;> exact Or.inl rfl
      · cases hv2 : DomValidator.isString k2 t with
        | error e => exact Or.inl rfl
        | ok b2 =>
            cases b2
            · cases t <;> exact Or.inl rfl
            · dsimp only
              cases hg1 : hsGetItem u (keyStr k1) st with
              | none =>
                  cases hg2 : hsGetItem u (keyStr k2) st with
                  | none => cases t <;> exact Or.inl rfl
                  | some v2 => cases t <;> exact Or.inl rfl
              | some v1 =>
                  cases hg2 : hsGetItem u (keyStr k2) st with
                  | none => cases t <;> exact Or.inl rfl
                  | some v2 => exact Or.inr ⟨v1, v2, rfl⟩

lemma setEncrypted_state (k : JSValue) (d : String) (u t : Bool) (st : HostState) :
    (StorageManager.setEncrypted k d u t st).2 = st ∨
    (StorageManager.setEncrypted k d u t st).2 = hsSetItem u (keyStr k) (.cipher d) st := by
  unfold StorageManager.setEncrypted
  cases hv : DomValidator.isString k t with
  | error e => exact Or.inl rfl
  | ok b =>
      cases b
      · cases t <;> exact Or.inl rfl
      · exact Or.inr rfl

lemma setCompressed_state (k : JSValue) (d : String) (u t : Bool) (st : HostState) :
    (StorageManager.setCompressed k d u t st).2 = st ∨
    (StorageManager.setCompressed k d u t st).2 = hsSetItem u (keyStr k) (.lz d) st := by
  unfold StorageManager.setCompressed
  cases hv : DomValidator.isString k t with
  | error e => exact Or.inl rfl
  | ok b =>
      cases b
      · cases t <;> exact Or.inl rfl
      · exact Or.inr rfl

/-- A concrete storage state holding one key whose stored string is raw AES
ciphertext and hence not valid JSON. -/
def corruptState : HostState := ⟨[("k", .cipher "secret")], [], [], []⟩

/-- Claim C2 counterexample: the quantification over every string key fails
at the empty string. Joi string() rejects the empty string, so with the
default throwOnError the setValue call throws and stores nothing, and in the
non-throwing mode the getValue call returns undefined rather than the stored
value. -/
theorem c2_counterexample :
    isError (StorageManager.setValue (.vStr "") (.vNum 1) false true emptyHost).1 = true ∧
    (StorageManager.setValue (.vStr "") (.vNum 1) false true emptyHost).2 = emptyHost ∧
    (StorageManager.getValue (.vStr "") false false
      (StorageManager.setValue (.vStr "") (.vNum 1) false false emptyHost).2).1 =
      .ok .undef :=
  ⟨rfl, rfl, rfl⟩

/-- Claim C2 as amended: for every nonempty string key, every JSON value and
both storage areas, getValue immediately after setValue returns the stored
value (the stored string JSON-parses back to it). -/
theorem c2_set_get_roundtrip (s : String) (hs : s ≠ "") (value : JSValue)
    (useSession : Bool) (st : HostState) :
    (StorageManager.getValue (.vStr s) useSession true
      (StorageManager.setValue (.vStr s) value useSession true st).2).1 =
      .ok (.js value) := by
  have hval : DomValidator.isString (.vStr s) true = .ok true := by
    simp [DomValidator.isString, hs]
  simp only [StorageManager.setValue, StorageManager.getValue, hval, keyStr]
  rw [hsGetItem_hsSetItem_self]
  rfl

/-- Witness for C2 at a concrete key and value. -/
theorem c2_set_get_roundtrip_witness :
    (StorageManager.getValue (.vStr "k") false true
      (StorageManager.setValue (.vStr "k") (.vNum 7) false true emptyHost).2).1 =
      .ok (.js (.vNum 7)) :=
  c2_set_get_roundtrip "k" (by decide) (.vNum 7) false emptyHost

/-- Claim C9 counterexample: the empty string is a key absent from storage,
yet getValue on it throws when throwOnError is true (the Joi guard rejects
empty keys) and returns undefined, not null, when throwOnError is false. -/
theorem c9_counterexample :
    hsGetItem false "" emptyHost = none ∧
    isError (StorageManager.getValue (.vStr "") false true emptyHost).1 = true ∧
    (StorageManager.getValue (.vStr "") false false emptyHost).1 = .ok .undef :=
  ⟨rfl, rfl, rfl⟩

/-- Claim C9 as amended: for every nonempty string key absent from the
chosen storage area and both settings of each flag, getValue returns exactly
null, without throwing and without touching the state. -/
theorem c9_getValue_absent_null (s : String) (hs : s ≠ "") (useSession t : Bool)
    (st : HostState) (habs : hsGetItem useSession s st = none) :
    StorageManager.getValue (.vStr s) useSession t st = (.ok (.js .vNull), st) := by
  have hval : DomValidator.isString (.vStr s) t = .ok true := by
    simp [DomValidator.isString, hs]
  simp only [StorageManager.getValue, hval, keyStr, habs]
  rfl

/-- Witness for C9 at a concrete absent key. -/
theorem c9_getValue_absent_null_witness :
    StorageManager.getValue (.vStr "missing") false true emptyHost =
      (.ok (.js .vNull), emptyHost) :=
  c9_getValue_absent_null "missing" (by decide) false true emptyHost rfl

/-- Claim C6 counterexample: getNumber and getValue call JSON.parse outside
any try/catch, so on a stored string that is not valid JSON (here raw AES
ciphertext, as setEncrypted writes) they propagate the SyntaxError even
with throwOnError set to false, instead of returning null. -/
theorem c6_counterexample :
    isError (StorageManager.getNumber (.vStr "k") false false corruptState).1 = true ∧
    isError (StorageManager.getValue (.vStr "k") false false corruptState).1 = true :=
  ⟨rfl, rfl⟩

/-- The value getObject yields with throwOnError false, as a function of the
stored string: the parsed value when it parses to a non-null non-array
object, and null otherwise (including parse failures and absent keys). -/
def getObjectSpec (stored : Option HostString) : JSValue :=
  match jsonParseStored stored with
  | .ok v => if isPlainObject v then v else .vNull
  | .error _ => .vNull

/-- Claim C6 as amended: the accessors that guard their parse in try/catch
behave as claimed — getObject with throwOnError false never throws on a
nonempty key: it returns the stored value exactly when the stored string
parses to a non-array object and null in every other case. (getValue and
getNumber, by the counterexample, do not share this guard.) -/
theorem c6_getObject_guarded (s : String) (hs : s ≠ "") (useSession : Bool)
    (st : HostState) :
    StorageManager.getObject (.vStr s) useSession false st =
      (.ok (.js (getObjectSpec (hsGetItem useSession s st))), st) := by
  have hval : DomValidator.isString (.vStr s) false = .ok true := by
    simp [DomValidator.isString, hs]
  simp only [StorageManager.getObject, hval, keyStr, getObjectSpec]
  cases hp : jsonParseStored (hsGetItem useSession s st) with
  | ok v =>
      by_cases hobj : isPlainObject v = true
      · simp [hp, hobj]
      · simp [hp, hobj, DomValidator.throwOrReturnOnError]
  | error e => simp [hp, DomValidator.throwOrReturnOnError]

/-- Witness for C6 at a concrete corrupted store: getObject returns null
without throwing where getNumber threw. -/
theorem c6_getObject_guarded_witness :
    StorageManager.getObject (.vStr "k") false false corruptState =
      (.ok (.js (getObjectSpec (hsGetItem false "k" corruptState))), corruptState) :=
  c6_getObject_guarded "k" (by decide) false corruptState

/-- Claim C4 counterexample: setEncrypted places the raw AES ciphertext
string into storage, and JSON.parse on that stored string fails — the
stored string is not a JSON-serialized image of the persisted entity. -/
theorem c4_counterexample :
    (StorageManager.setEncrypted (.vStr "k") "secret" false true emptyHost).2.trace =
      [.setE false "k" (.cipher "secret")] ∧
    hsGetItem false "k"
      (StorageManager.setEncrypted (.vStr "k") "secret" false true emptyHost).2 =
      some (.cipher "secret") ∧
    isError (jsonParse (.cipher "secret")) = true :=
  ⟨rfl, rfl, rfl⟩

lemma hsGetItem_scheduleTimeout (u : Bool) (k : String) (d : Int) (u2 : Bool)
    (k2 : String) (st : HostState) :
    hsGetItem u k (StorageManager.scheduleTimeout d u2 k2 st) = hsGetItem u k st := by
  cases u <;> simp [hsGetItem, StorageManager.scheduleTimeout, getStorage]

/-- Claim C4 as amended: the set-methods that persist through JSON.stringify
(setValue and setExpiration among the modelled ones) store strings that
JSON.parse back to the persisted entity, while setEncrypted and
setCompressed store raw transformed strings that are not JSON.stringify
output and do not parse. -/
theorem c4_json_writes (s : String) (hs : s ≠ "") (value : JSValue)
    (data : String) (secs now : Int) (useSession : Bool) (st : HostState) :
    (hsGetItem useSession s
        (StorageManager.setValue (.vStr s) value useSession true st).2 =
        some (.jsonOf value) ∧
      jsonParse (.jsonOf value) = .ok value) ∧
    (∃ w, hsGetItem useSession s
        (StorageManager.setExpiration (.vStr s) value secs useSession true now st).2 =
        some (.jsonOf w) ∧
      jsonParse (.jsonOf w) = .ok w) ∧
    (hsGetItem useSession s
        (StorageManager.setEncrypted (.vStr s) data useSession true st).2 =
        some (.cipher data) ∧
      isError (jsonParse (.cipher data)) = true) ∧
    (hsGetItem useSession s
        (StorageManager.setCompressed (.vStr s) data useSession true st).2 =
        some (.lz data) ∧
      isError (jsonParse (.lz data)) = true) := by
  have hval : DomValidator.isString (.vStr s) true = .ok true := by
    simp [DomValidator.isString, hs]
  refine ⟨⟨?_, rfl⟩, ?_, ⟨?_, rfl⟩, ⟨?_, rfl⟩⟩
  · simp only [StorageManager.setValue, hval, keyStr]
    exact hsGetItem_hsSetItem_self useSession s (.jsonOf value) st
  · refine ⟨.vObj [("value", value), ("expirationTime",
        expirationToJson (if secs ≠ 0 then some (now + secs * 1000) else none))], ?_, rfl⟩
    simp only [StorageManager.setExpiration, hval, keyStr]
    by_cases hx : expTruthy (if secs ≠ 0 then some (now + secs * 1000) else none) = true
    · rw [if_pos hx, hsGetItem_scheduleTimeout]
      exact hsGetItem_hsSetItem_self useSession s _ st
    · rw [if_neg hx]
      exact hsGetItem_hsSetItem_self useSession s _ st
  · simp only [StorageManager.setEncrypted, hval, keyStr]
    exact hsGetItem_hsSetItem_self useSession s (.cipher data) st
  · simp only [StorageManager.setCompressed, hval, keyStr]
    exact hsGetItem_hsSetItem_self useSession s (.lz data) st

/-- Witness for C4 at a concrete key, value and expiration. -/
theorem c4_json_writes_witness :
    hsGetItem false "k"
        (StorageManager.setValue (.vStr "k") (.vBool true) false true emptyHost).2 =
      some (.jsonOf (.vBool true)) :=
  (c4_json_writes "k" (by decide) (.vBool true) "d" 5 0 false emptyHost).1.1

/-- Whether a JavaScript value passes the Joi key guard: a nonempty string. -/
def isValidKeyB : JSValue → Bool
  | .vStr s => s != ""
  | _ => false

lemma isString_invalid_true (key : JSValue) (hk : isValidKeyB key = false) :
    ∃ e, DomValidator.isString key true = .error e := by
  cases key with
  | vStr s =>
      have hs : s = "" := by
        by_contra hne
        simp [isValidKeyB, hne] at hk
      subst hs
      exact ⟨_, rfl⟩
  | vNull => exact ⟨_, rfl⟩
  | vBool b => exact ⟨_, rfl⟩
  | vNum n => exact ⟨_, rfl⟩
  | vArr l => exact ⟨_, rfl⟩
  | vObj f => exact ⟨_, rfl⟩

lemma isString_invalid_false (key : JSValue) (hk : isValidKeyB key = false) :
    DomValidator.isString key false = .ok false := by
  cases key with
  | vStr s =>
      have hs : s = "" := by
        by_contra hne
        simp [isValidKeyB, hne] at hk
      subst hs
      rfl
  | vNull => rfl
  | vBool b => rfl
  | vNum n => rfl
  | vArr l => rfl
  | vObj f => rfl

/-- Claim C1 counterexample: LoggerBase.setLogLevel is a public method of
the Logger family whose source signature setLogLevel(level) carries no
trailing throwOnError parameter at all, and on an invalid level it throws
unconditionally — there is no argument that makes it return null instead. -/
theorem c1_counterexample :
    isError (LoggerBase.setLogLevel ⟨some "INFO", []⟩ (some "TRACE")) = true ∧
    isError (LoggerBase.mk (some "TRACE")) = true :=
  ⟨rfl, rfl⟩

/-- Claim C1 as amended: the modelled StorageManager methods that validate a
key do accept a trailing throwOnError and, on an invalid key (a non-string
or the empty string, which the Joi guard also rejects), throw exactly when
throwOnError is true and return undefined or null with the state untouched
when it is false; the LoggerBase methods and the bulk StorageManager
methods clearStorage and removeAllTimingItems carry no such parameter. -/
theorem c1_throwOnError_pattern (key : JSValue) (hk : isValidKeyB key = false)
    (value key2 : JSValue) (data : String) (secs now : Int) (u : Bool)
    (st : HostState) :
    (isError (StorageManager.setValue key value u true st).1 = true ∧
      StorageManager.setValue key value u false st = (.ok .undef, st)) ∧
    (isError (StorageManager.getValue key u true st).1 = true ∧
      StorageManager.getValue key u false st = (.ok .undef, st)) ∧
    (isError (StorageManager.removeValue key u true st).1 = true ∧
      StorageManager.removeValue key u false st = (.ok .undef, st)) ∧
    (isError (StorageManager.getObject key u true st).1 = true ∧
      StorageManager.getObject key u false st = (.ok (.js .vNull), st)) ∧
    (isError (StorageManager.getNumber key u true st).1 = true ∧
      StorageManager.getNumber key u false st = (.ok (.js .vNull), st)) ∧
    (isError (StorageManager.setExpiration key value secs u true now st).1 = true ∧
      StorageManager.setExpiration key value secs u false now st = (.ok .undef, st)) ∧
    (isError (StorageManager.swapValues key key2 u true st).1 = true ∧
      StorageManager.swapValues key key2 u false st = (.ok .undef, st)) ∧
    (isError (StorageManager.setEncrypted key data u true st).1 = true ∧
      StorageManager.setEncrypted key data u false st = (.ok .undef, st)) ∧
    (isError (StorageManager.setCompressed key data u true st).1 = true ∧
      StorageManager.setCompressed key data u false st = (.ok .undef, st)) := by
  obtain ⟨e, he⟩ := isString_invalid_true key hk
  have hf := isString_invalid_false key hk
  refine ⟨⟨?_, ?_⟩, ⟨?_, ?_⟩, ⟨?_, ?_⟩, ⟨?_, ?_⟩, ⟨?_, ?_⟩, ⟨?_, ?_⟩, ⟨?_, ?_⟩,
    ⟨?_, ?_⟩, ⟨?_, ?_⟩⟩ <;>
  simp [StorageManager.setValue, StorageManager.getValue, StorageManager.removeValue,
    StorageManager.getObject, StorageManager.getNumber, StorageManager.setExpiration,
    StorageManager.swapValues, StorageManager.setEncrypted, StorageManager.setCompressed,
    he, hf, DomValidator.throwOrReturnOnError, isError]

/-- Witness for C1 at a concrete invalid key (a number). -/
theorem c1_throwOnError_pattern_witness :
    isError (StorageManager.setValue (.vNum 0) .vNull false true emptyHost).1 = true :=
  (c1_throwOnError_pattern (.vNum 0) rfl .vNull .vNull "" 0 0 false emptyHost).1.1

/-- Claim C5: a setExpiration call with a valid key and nonzero
secondsToExpiration (whose computed expiration instant is a truthy number)
schedules exactly one timer, recorded with delay secondsToExpiration * 1000
milliseconds on the chosen storage area and key; the registered callback
unconditionally removes the key whatever the state holds at firing time;
and no modelled StorageManager operation ever cancels a previously
scheduled timer — the pending-timer queue before a call is always a prefix
of the queue after it. -/
theorem c5_setExpiration_timer (s : String) (hs : s ≠ "") (value : JSValue)
    (secs now : Int) (hsecs : secs ≠ 0) (hexp : now + secs * 1000 ≠ 0)
    (useSession throwOnError : Bool) (st : HostState) :
    ((StorageManager.setExpiration (.vStr s) value secs useSession
        throwOnError now st).2.timers =
      st.timers ++ [⟨secs * 1000, useSession, s⟩]) ∧
    (∀ (t : TimerEntry) (st' : HostState),
        hsGetItem t.useSession t.key (StorageManager.fireTimer t st') = none) ∧
    (∀ (op : StorageOp) (st' : HostState), st'.timers <+: (stepState op st').timers) := by
  refine ⟨?_, ?_, ?_⟩
  · have hval : DomValidator.isString (.vStr s) throwOnError = .ok true := by
      simp [DomValidator.isString, hs]
    have hxt : expTruthy (if secs ≠ 0 then some (now + secs * 1000) else none) = true := by
      rw [if_pos hsecs]
      simpa [expTruthy, bne_iff_ne] using hexp
    simp only [StorageManager.setExpiration, hval, keyStr]
    rw [if_pos hxt]
    simp [StorageManager.scheduleTimeout, timers_hsSetItem]
  · intro t st'
    simpa [StorageManager.fireTimer] using
      hsGetItem_hsRemoveItem_self t.useSession t.key st'
  · intro op st'
    cases op with
    | opSetValue k v u t =>
        rcases setValue_state k v u t st' with h | h <;>
          simp [stepState, h, timers_hsSetItem]
    | opGetValue k u t => simp [stepState, getValue_state]
    | opRemoveValue k u t =>
        rcases removeValue_state k u t st' with h | h <;>
          simp [stepState, h, timers_hsRemoveItem]
    | opClearStorage u => simp [stepState, StorageManager.clearStorage, timers_hsClear]
    | opGetObject k u t => simp [stepState, getObject_state]
    | opGetNumber k u t => simp [stepState, getNumber_state]
    | opSetExpiration k v sc u t nw =>
        rcases setExpiration_state k v sc u t nw st' with h | ⟨w, h⟩ | ⟨w, h⟩
        · simp [stepState, h]
        · simp [stepState, h, timers_hsSetItem]
        · simp only [stepState, h, timers_scheduleTimeout, timers_hsSetItem]
          exact List.prefix_append _ _
    | opSwapValues k1 k2 u t =>
        rcases swapValues_state k1 k2 u t st' with h | ⟨v1, v2, h⟩ <;>
          simp [stepState, h, timers_hsSetItem]
    | opRemoveAllTimingItems u =>
        simp only [stepState, StorageManager.removeAllTimingItems]
        rw [timers_removeAllTimingItems_fold]
    | opSetEncrypted k d u t =>
        rcases setEncrypted_state k d u t st' with h | h <;>
          simp [stepState, h, timers_hsSetItem]
    | opSetCompressed k d u t =>
        rcases setCompressed_state k d u t st' with h | h <;>
          simp [stepState, h, timers_hsSetItem]

/-- Witness for C5 at a concrete key, delay and clock. -/
theorem c5_setExpiration_timer_witness :
    ((StorageManager.setExpiration (.vStr "k") .vNull 5 false true 0
        emptyHost).2.timers =
      emptyHost.timers ++ [⟨5 * 1000, false, "k"⟩]) ∧
    (∀ (t : TimerEntry) (st' : HostState),
        hsGetItem t.useSession t.key (StorageManager.fireTimer t st') = none) ∧
    (∀ (op : StorageOp) (st' : HostState), st'.timers <+: (stepState op st').timers) :=
  c5_setExpiration_timer "k" (by decide) .vNull 5 0 (by decide) (by decide)
    false true emptyHost

/-- A concrete storage state with two bound keys, for the swapValues
counterexample. -/
def swapState : HostState :=
  ⟨[("a", .jsonOf (.vNum 1)), ("b", .jsonOf (.vNum 2))], [], [], []⟩

/-- A concrete storage state holding one timing record under a key that no
argument of removeAllTimingItems names. -/
def timingState : HostState :=
  ⟨[("t", .jsonOf (.vObj [("value", .vNull), ("expirationTime", .vNum 5)]))], [], [], []⟩

/-- Claim C7 counterexample: swapValues performs two mutating setItem calls
in one invocation, and removeAllTimingItems — whose arguments name no key at
all — removes the key t from storage. -/
theorem c7_counterexample :
    (StorageManager.swapValues (.vStr "a") (.vStr "b") false true swapState).2.trace =
      [.setE false "a" (.jsonOf (.vNum 2)), .setE false "b" (.jsonOf (.vNum 1))] ∧
    (StorageManager.removeAllTimingItems false timingState).2.trace =
      [.removeE false "t"] ∧
    opNamedKeys (.opRemoveAllTimingItems false) = [] ∧
    hsGetItem false "t" (StorageManager.removeAllTimingItems false timingState).2 = none :=
  ⟨rfl, rfl, rfl, rfl⟩

/-- Claim C7 as amended: every modelled StorageManager method except
swapValues, clearStorage and removeAllTimingItems performs at most one
mutating host-storage call per invocation, and that call touches only a key
named in the arguments. -/
theorem c7_single_key_frame (op : StorageOp) (hop : singleCallOp op = true)
    (st : HostState) :
    ∃ ext, (stepState op st).trace = st.trace ++ ext ∧ ext.length ≤ 1 ∧
      ∀ e ∈ ext, ∃ k, e.touchedKey = some k ∧ k ∈ opNamedKeys op := by
  cases op with
  | opSetValue k v u t =>
      rcases setValue_state k v u t st with h | h
      · exact ⟨[], by simp [stepState, h], by simp, by simp⟩
      · refine ⟨[.setE u (keyStr k) (.jsonOf v)], ?_, by simp, ?_⟩
        · simp [stepState, h, trace_hsSetItem]
        · intro e he
          rw [List.mem_singleton] at he
          subst he
          exact ⟨keyStr k, rfl, by simp [opNamedKeys]⟩
  | opGetValue k u t =>
      exact ⟨[], by simp [stepState, getValue_state], by simp, by simp⟩
  | opRemoveValue k u t =>
      rcases removeValue_state k u t st with h | h
      · exact ⟨[], by simp [stepState, h], by simp, by simp⟩
      · refine ⟨[.removeE u (keyStr k)], ?_, by simp, ?_⟩
        · simp [stepState, h, trace_hsRemoveItem]
        · intro e he
          rw [List.mem_singleton] at he
          subst he
          exact ⟨keyStr k, rfl, by simp [opNamedKeys]⟩
  | opClearStorage u => simp [singleCallOp] at hop
  | opGetObject k u t =>
      exact ⟨[], by simp [stepState, getObject_state], by simp, by simp⟩
  | opGetNumber k u t =>
      exact ⟨[], by simp [stepState, getNumber_state], by simp, by simp⟩
  | opSetExpiration k v sc u t nw =>
      rcases setExpiration_state k v sc u t nw st with h | ⟨w, h⟩ | ⟨w, h⟩
      · exact ⟨[], by simp [stepState, h], by simp, by simp⟩
      · refine ⟨[.setE u (keyStr k) (.jsonOf w)], ?_, by simp, ?_⟩
        · simp [stepState, h, trace_hsSetItem]
        · intro e he
          rw [List.mem_singleton] at he
          subst he
          exact ⟨keyStr k, rfl, by simp [opNamedKeys]⟩
      · refine ⟨[.setE u (keyStr k) (.jsonOf w)], ?_, by simp, ?_⟩
        · simp [stepState, h, trace_scheduleTimeout, trace_hsSetItem]
        · intro e he
          rw [List.mem_singleton] at he
          subst he
          exact ⟨keyStr k, rfl, by simp [opNamedKeys]⟩
  | opSwapValues k1 k2 u t => simp [singleCallOp] at hop
  | opRemoveAllTimingItems u => simp [singleCallOp] at hop
  | opSetEncrypted k d u t =>
      rcases setEncrypted_state k d u t st with h | h
      · exact ⟨[], by simp [stepState, h], by simp, by simp⟩
      · refine ⟨[.setE u (keyStr k) (.cipher d)], ?_, by simp, ?_⟩
        · simp [stepState, h, trace_hsSetItem]
        · intro e he
          rw [List.mem_singleton] at he
          subst he
          exact ⟨keyStr k, rfl, by simp [opNamedKeys]⟩
  | opSetCompressed k d u t =>
      rcases setCompressed_state k d u t st with h | h
      · exact ⟨[], by simp [stepState, h], by simp, by simp⟩
      · refine ⟨[.setE u (keyStr k) (.lz d)], ?_, by simp, ?_⟩
        · simp [stepState, h, trace_hsSetItem]
        · intro e he
          rw [List.mem_singleton] at he
          subst he
          exact ⟨keyStr k, rfl, by simp [opNamedKeys]⟩

/-- Witness for C7 at a concrete single-key call. -/
theorem c7_single_key_frame_witness :
    ∃ ext, (stepState (.opSetValue (.vStr "k") .vNull false true) emptyHost).trace =
        emptyHost.trace ++ ext ∧ ext.length ≤ 1 ∧
      ∀ e ∈ ext, ∃ k, e.touchedKey = some k ∧
        k ∈ opNamedKeys (.opSetValue (.vStr "k") .vNull false true) :=
  c7_single_key_frame (.opSetValue (.vStr "k") .vNull false true) rfl emptyHost
